import Mathlib

/-!
Verification development for the partitioned vector-retrieval service
(`rag-service`).  The definitions below are a shallow embedding of
`src/core/vector_store.py` and `src/core/document_processor.py`.

Modelling conventions:
* Python floats are modelled as rationals (`ℚ`); every numeric literal in
  the source (0.85, 0.8, 0.7, 0.6, 0.3, 0.1) is exact at this precision.
* A langchain `Document` is `Doc`: `page_content` plus the metadata keys the
  embedded code reads or writes, each as an `Option` (a missing dict key is
  `none`).
* A FAISS store is `Faiss`: the docstore contents in key-insertion order
  (`docs`) plus `has_index`, the combined truth value of
  `hasattr(vs, 'index') and vs.index` (always `true` for a real FAISS store;
  the source also branches on it for test doubles).
  `hasattr(vs, 'docstore') and vs.docstore` is always truthy for a real
  store (`InMemoryDocstore` has no `__bool__`), so it is modelled as true.
* The outcomes of the underlying langchain searches
  (`max_marginal_relevance_search`, the FAISS-level `similarity_search`)
  depend on the embedding model, so they are supplied as a `SearchOracle`:
  `Except Unit (List Doc)` is `.error` when the call raises and `.ok ds`
  when it returns `ds`.  The same call is deterministic within one request,
  so one field serves every call site with identical arguments.
* Exceptions are modelled by `Except` at the fallible leaves; the embedded
  functions are total, mirroring the source's catch-all `try/except`
  structure.
* `k = k or self.top_k_retrieval` treats both `None` and `0` as falsy, so
  the model uses `k : Nat` with `0` standing for both.
-/

/-- Metadata dictionary: exactly the keys read or written by the embedded
code.  A missing key is `none`. -/
structure Metadata where
  relevance_score : Option ℚ := none
  department : Option String := none
  error : Bool := false
  window_start : Option Nat := none
  window_end : Option Nat := none
  central_sentence : Option Nat := none
  sentence_relevance : Option ℚ := none
  window_type : Option String := none
deriving DecidableEq, Repr

/-- A langchain `Document`. -/
structure Doc where
  page_content : String
  metadata : Metadata := {}
deriving DecidableEq, Repr

/-- A FAISS vector store: docstore contents in key order, and whether the
`index` attribute is present and truthy. -/
structure Faiss where
  docs : List Doc
  has_index : Bool := true
deriving DecidableEq, Repr

/-- The `VectorStore` state: the configuration fields the embedded methods
read, the main store, and the department map (a Python dict in insertion
order).  Filesystem paths are I/O-only configuration and are not modelled. -/
structure VectorStore where
  top_k_retrieval : Nat := 5
  use_mmr : Bool := true
  vectorstore : Option Faiss := none
  department_vectorstores : List (String × Faiss) := []
deriving DecidableEq, Repr

/-- `doc.metadata['relevance_score'] = v` (unconditional overwrite). -/
def setScore (v : ℚ) (d : Doc) : Doc :=
  { d with metadata := { d.metadata with relevance_score := some v } }

/-- `if 'relevance_score' not in doc.metadata: doc.metadata['relevance_score'] = v`. -/
def fillScore (v : ℚ) (d : Doc) : Doc :=
  match d.metadata.relevance_score with
  | some _ => d
  | none => setScore v d

/-- `doc.metadata['department'] = dept`. -/
def setDept (dept : String) (d : Doc) : Doc :=
  { d with metadata := { d.metadata with department := some dept } }

/-- `x.metadata.get('relevance_score', 0)`. -/
def scoreKey (d : Doc) : ℚ :=
  (d.metadata.relevance_score).getD 0

/-- Python dict read: `self.department_vectorstores[department]` guarded by
`department in self.department_vectorstores`. -/
def lookupDept : List (String × Faiss) → String → Option Faiss
  | [], _ => none
  | (n, f) :: rest, d => if n = d then some f else lookupDept rest d

/-- Python dict write `self.department_vectorstores[department] = f`:
replace in place if present, else append (dicts keep insertion order). -/
def updateDept : List (String × Faiss) → String → Faiss → List (String × Faiss)
  | [], d, f => [(d, f)]
  | (n, g) :: rest, d, f =>
      if n = d then (n, f) :: rest else (n, g) :: updateDept rest d f

/-- Outcomes of the underlying langchain search calls for one request. -/
structure SearchOracle where
  mmr : Except Unit (List Doc)
  plain : Except Unit (List Doc)

/-- The list of docs produced by the main search block of
`similarity_search` / `search_department` (lines 289-307 / 398-416):
MMR first when `use_mmr`, regular search as fallback on an MMR exception or
an empty MMR result with a truthy index; `.error` when the attempt that was
reached last raised (caught by the enclosing `except`).  Note that when the
empty-result fallback `plain` call raises inside the MMR `try`, the
`except mmr_err` handler calls `plain` again, which raises again, landing in
the outer handler - the net outcome is the same `.error`. -/
def mainSearchDocs (use_mmr : Bool) (has_index : Bool) (o : SearchOracle) :
    Except Unit (List Doc) :=
  if use_mmr then
    match o.mmr with
    | .ok ds => if ds = [] ∧ has_index then o.plain else .ok ds
    | .error e => match o.plain with
      | .ok ds => .ok ds
      | .error _ => .error e
  else o.plain

/-- `k = k or self.top_k_retrieval`: `0` (Python `None` or `0`, both falsy)
falls back to the configured default. -/
def effectiveK (k topk : Nat) : Nat := if k = 0 then topk else k

/-- Body of `similarity_search` after the store and the effective `k` are
resolved (vector_store.py lines 269-356). -/
def simSearchCore (vs : VectorStore) (o : SearchOracle) (f : Faiss)
    (k : Nat) : List Doc :=
  -- docstore direct retrieval (lines 271-287): taken only when the store
  -- has documents but no `index` attribute
  if f.docs ≠ [] ∧ f.has_index = false then
    (f.docs.take k).map (setScore (Rat.divInt 4 5))
  else
    match mainSearchDocs vs.use_mmr f.has_index o with
    | .ok ds =>
      let ds := ds.map (fillScore (Rat.divInt 17 20))
      if ds = [] then
        -- no-result docstore fallback (lines 315-332)
        if f.docs ≠ [] then (f.docs.take k).map (setScore (Rat.divInt 7 10)) else ds
      else ds
    | .error _ =>
      -- outer `except`: emergency docstore fallback (lines 335-356)
      if f.docs ≠ [] then (f.docs.take k).map (setScore (Rat.divInt 3 5)) else []

/-- `VectorStore.similarity_search` (vector_store.py lines 252-356). -/
def similarity_search (vs : VectorStore) (o : SearchOracle) (k : Nat) :
    List Doc :=
  match vs.vectorstore with
  | none => []
  | some f => simSearchCore vs o f (effectiveK k vs.top_k_retrieval)

/-- Body of `search_department` after the department store and the
effective `k` are resolved (vector_store.py lines 376-465): the same
cascade as `simSearchCore`, with the department stamped on every returned
doc. -/
def deptSearchCore (vs : VectorStore) (o : SearchOracle) (dept : String)
    (f : Faiss) (k : Nat) : List Doc :=
  if f.docs ≠ [] ∧ f.has_index = false then
    (f.docs.take k).map (fun d => setDept dept (setScore (Rat.divInt 4 5) d))
  else
    match mainSearchDocs vs.use_mmr f.has_index o with
    | .ok ds =>
      let ds := ds.map (fun d => setDept dept (fillScore (Rat.divInt 17 20) d))
      if ds = [] then
        if f.docs ≠ [] then
          (f.docs.take k).map (fun d => setDept dept (setScore (Rat.divInt 7 10) d))
        else ds
      else ds
    | .error _ =>
      if f.docs ≠ [] then
        (f.docs.take k).map (fun d => setDept dept (setScore (Rat.divInt 3 5) d))
      else []

/-- `VectorStore.search_department` (vector_store.py lines 358-465). -/
def search_department (vs : VectorStore) (o : SearchOracle) (dept : String)
    (k : Nat) : List Doc :=
  match lookupDept vs.department_vectorstores dept with
  | none => []
  | some f => deptSearchCore vs o dept f (effectiveK k vs.top_k_retrieval)

/-- `concatMap f l`: the concatenation of `f` over `l` in order (the loop
that extends `all_results` department by department). -/
def concatMap (f : String → List Doc) : List String → List Doc
  | [] => []
  | a :: l => f a ++ concatMap f l

/-- Stable descending insertion: place `x` after every element whose key is
`≥ scoreKey x` and before the first strictly smaller one. -/
def insertDesc (x : Doc) : List Doc → List Doc
  | [] => [x]
  | y :: ys => if scoreKey y < scoreKey x then x :: y :: ys
               else y :: insertDesc x ys

/-- Tail of the stable sort: fold the input left to right into a sorted
accumulator. -/
def sortDescAux : List Doc → List Doc → List Doc
  | acc, [] => acc
  | acc, x :: l => sortDescAux (insertDesc x acc) l

/-- `sorted(l, key=scoreKey, reverse=True)`: Python's `sorted` is stable,
and with `reverse=True` equal-key elements still keep their original order;
this insertion sort has exactly that behaviour. -/
def sortDesc (l : List Doc) : List Doc := sortDescAux [] l

/-- `VectorStore.search_across_departments` (vector_store.py lines 467-529).
`departments : Option (List String)` models the `None`-able parameter
(`not departments` is true for both `None` and `[]`).  `embedOk` is whether
`self.embeddings.embed_query(query)` succeeded, and `compute` is
`self._compute_relevance(doc.page_content, query_embedding)`. -/
def search_across_departments (vs : VectorStore)
    (oracles : String → SearchOracle) (mainO : SearchOracle)
    (compute : Doc → ℚ) (embedOk : Bool)
    (departments : Option (List String)) (k : Nat) : List Doc :=
  if departments.getD [] = [] ∧ vs.department_vectorstores = [] then
    similarity_search vs mainO k
  else
    let depts := if departments.getD [] = [] then
        vs.department_vectorstores.map Prod.fst
      else departments.getD []
    let k := effectiveK k vs.top_k_retrieval
    let all_results := concatMap (fun dept =>
      if (lookupDept vs.department_vectorstores dept).isSome then
        (search_department vs (oracles dept) dept k).map (setDept dept)
      else []) depts
    -- score normalisation loop (lines 513-519)
    let all_results := all_results.map (fun d =>
      if d.metadata.relevance_score.isSome then d
      else if embedOk then setScore (compute d) d else setScore (Rat.divInt 7 10) d)
    (sortDesc all_results).take k

/-- Fallible steps of one `initialize_*` call.  `load` is the outcome of
`FAISS.load_local` (`.error` when it raises, e.g. no saved files under the
path); `build_fails` is whether `FAISS.from_texts`/`from_documents` raises;
`save_fails` is whether `save_local` raises; `fallback_fails` is whether the
`from_texts` call in the `except` handler raises.  The `os.path.exists`
guard on the load branch is always true because the constructor (and the
department initializer) run `os.makedirs(..., exist_ok=True)` first. -/
structure BuildEnv where
  load : Except Unit Faiss
  build_fails : Bool
  save_fails : Bool
  fallback_fails : Bool

/-- Observable outcome of one `initialize_*` call: the returned Bool, the
number of fallback placeholder-build attempts made in the `except` handler,
and the number of successful `save_local` calls. -/
structure InitResult where
  ok : Bool
  fallback_attempts : Nat
  saves : Nat
deriving DecidableEq, Repr

/-- `FAISS.from_texts([text], embeddings)`: a store holding one document
with empty metadata. -/
def fromTexts (text : String) : Faiss := ⟨[⟨text, {}⟩], true⟩

/-- The `except` handler of `initialize_vectorstore` (lines 91-102): one
fallback attempt to build `FAISS.from_texts(["empty fallback placeholder"])`
(never saved); `False` only when that also raises.  `vs` carries whatever
`self.vectorstore` held when the exception fired. -/
def initVectorstoreFallback (vs : VectorStore) (env : BuildEnv) :
    InitResult × VectorStore :=
  if env.fallback_fails then (⟨false, 1, 0⟩, vs)
  else (⟨true, 1, 0⟩,
    { vs with vectorstore := some (fromTexts "empty fallback placeholder") })

/-- The creation part of `initialize_vectorstore` (lines 76-89): build from
texts or chunks - `self.vectorstore` is assigned as soon as the build
succeeds, before `save_local` - then save. -/
def initVectorstoreBuild (vs : VectorStore) (env : BuildEnv)
    (chunks : List Doc) : InitResult × VectorStore :=
  let target : Faiss :=
    if chunks = [] then fromTexts "empty placeholder" else ⟨chunks, true⟩
  if env.build_fails then initVectorstoreFallback vs env
  else
    let vs1 := { vs with vectorstore := some target }
    if env.save_fails then initVectorstoreFallback vs1 env
    else (⟨true, 0, 1⟩, vs1)

/-- `VectorStore.initialize_vectorstore` (vector_store.py lines 52-102).
The load branch is reached iff `rebuild` is false and `chunks` is falsy
(`None` or `[]`, both modelled by `[]`); a load failure falls through to
creation. -/
def initialize_vectorstore (vs : VectorStore) (env : BuildEnv)
    (chunks : List Doc) (rebuild : Bool) : InitResult × VectorStore :=
  if chunks = [] ∧ rebuild = false then
    match env.load with
    | .ok f => (⟨true, 0, 0⟩, { vs with vectorstore := some f })
    | .error _ => initVectorstoreBuild vs env chunks
  else initVectorstoreBuild vs env chunks

/-- The single-sentinel placeholder store for a department (line 139). -/
def deptPlaceholder (dept : String) : Faiss :=
  fromTexts ("Empty placeholder for " ++ dept ++ " department")

/-- The `except` handler of `initialize_department_vectorstore` (lines
157-169). -/
def initDeptFallback (vs : VectorStore) (env : BuildEnv) (dept : String) :
    InitResult × VectorStore :=
  if env.fallback_fails then (⟨false, 1, 0⟩, vs)
  else
    let fb := fromTexts ("Empty fallback placeholder for " ++ dept ++ " department")
    let m := updateDept vs.department_vectorstores dept fb
    (⟨true, 1, 0⟩, { vs with department_vectorstores := m })

/-- The creation part of `initialize_department_vectorstore` (lines
135-155): empty or non-matching chunk lists yield the sentinel placeholder,
otherwise the store is built from the chunks whose `department` metadata
matches; the dict entry is assigned before `save_local` runs. -/
def initDeptBuild (vs : VectorStore) (env : BuildEnv) (dept : String)
    (chunks : List Doc) : InitResult × VectorStore :=
  let dc := chunks.filter (fun c => c.metadata.department = some dept)
  let target : Faiss :=
    if chunks = [] then deptPlaceholder dept
    else if dc = [] then deptPlaceholder dept
    else ⟨dc, true⟩
  if env.build_fails then initDeptFallback vs env dept
  else
    let vs1 := { vs with
      department_vectorstores := updateDept vs.department_vectorstores dept target }
    if env.save_fails then initDeptFallback vs1 env dept
    else (⟨true, 0, 1⟩, vs1)

/-- `VectorStore.initialize_department_vectorstore` (vector_store.py lines
104-169). -/
def initialize_department_vectorstore (vs : VectorStore) (env : BuildEnv)
    (dept : String) (chunks : List Doc) (rebuild : Bool) :
    InitResult × VectorStore :=
  if chunks = [] ∧ rebuild = false then
    match env.load with
    | .ok f => (⟨true, 0, 0⟩,
        { vs with department_vectorstores :=
            updateDept vs.department_vectorstores dept f })
    | .error _ => initDeptBuild vs env dept chunks
  else initDeptBuild vs env dept chunks

/-- Fallible steps of one `add_documents*` call: whether the FAISS-level
`add_documents` raises (modelled all-or-nothing) and whether `save_local`
raises. -/
structure AddEnv where
  add_fails : Bool
  save_fails : Bool

/-- Observable outcome of one `add_documents*` call: returned Bool, the new
state, the number of successful `save_local` calls and the number of
delegations to an `initialize_*` method. -/
structure AddResult where
  ok : Bool
  vs : VectorStore
  saves : Nat
  inits : Nat
deriving DecidableEq, Repr

/-- `VectorStore.add_documents` (vector_store.py lines 191-215): empty
chunk lists (`None` or `[]`) return `False` immediately; a missing main
store delegates to `initialize_vectorstore`; otherwise insert then save. -/
def add_documents (vs : VectorStore) (ienv : BuildEnv) (aenv : AddEnv)
    (chunks : List Doc) : AddResult :=
  if chunks = [] then ⟨false, vs, 0, 0⟩
  else match vs.vectorstore with
  | none =>
      let r := initialize_vectorstore vs ienv chunks false
      ⟨(r.1).ok, r.2, (r.1).saves, 1⟩
  | some f =>
      if aenv.add_fails then ⟨false, vs, 0, 0⟩
      else
        let vs1 := { vs with vectorstore := some { f with docs := f.docs ++ chunks } }
        if aenv.save_fails then ⟨false, vs1, 0, 0⟩
        else ⟨true, vs1, 1, 0⟩

/-- `VectorStore.add_documents_to_department` (vector_store.py lines
217-250): empty chunk lists return `False` immediately; an unknown
department delegates to `initialize_department_vectorstore`; chunks are
filtered to the department, a fully-filtered-out list returns `True` with
no insertion. -/
def add_documents_to_department (vs : VectorStore) (ienv : BuildEnv)
    (aenv : AddEnv) (dept : String) (chunks : List Doc) : AddResult :=
  if chunks = [] then ⟨false, vs, 0, 0⟩
  else match lookupDept vs.department_vectorstores dept with
  | none =>
      let r := initialize_department_vectorstore vs ienv dept chunks false
      ⟨(r.1).ok, r.2, (r.1).saves, 1⟩
  | some f =>
      let dc := chunks.filter (fun c => c.metadata.department = some dept)
      if dc = [] then ⟨true, vs, 0, 0⟩
      else if aenv.add_fails then ⟨false, vs, 0, 0⟩
      else
        let m := updateDept vs.department_vectorstores dept { f with docs := f.docs ++ dc }
        let vs1 := { vs with department_vectorstores := m }
        if aenv.save_fails then ⟨false, vs1, 0, 0⟩
        else ⟨true, vs1, 1, 0⟩

/-- Python `max(l)` for a non-empty list (`0` is never used by callers,
which guard non-emptiness first). -/
def listMax : List ℚ → ℚ
  | [] => 0
  | a :: l => l.foldl max a

set_option linter.unusedVariables false in
/-- `VectorStore.evaluate_context_relevance` (vector_store.py lines
582-610).  The `query` parameter is unused by the body, and `threshold` is
never consulted: the source fixes `has_relevant_context = True` whenever
`docs` is non-empty. -/
def evaluate_context_relevance (docs : List Doc) (threshold : ℚ) :
    ℚ × Bool :=
  if docs = [] then (0, false)
  else
    let scored := docs.map (fillScore (Rat.divInt 7 10))
    let maxSim := listMax
      (scored.map (fun d => (d.metadata.relevance_score).getD (Rat.divInt 7 10)))
    (maxSim, true)

/-! ## Document processor (`src/core/document_processor.py`) -/

/-- Python `str.split()` with no argument: split on runs of whitespace,
discarding empty tokens.  `cur` is the current token in reverse. -/
def pySplitWsAux : List Char → List Char → List String
  | cur, [] => if cur = [] then [] else [String.mk cur.reverse]
  | cur, c :: rest =>
      if c.isWhitespace then
        if cur = [] then pySplitWsAux [] rest
        else String.mk cur.reverse :: pySplitWsAux [] rest
      else pySplitWsAux (c :: cur) rest

/-- `s.split()`. -/
def pySplitWs (s : String) : List String := pySplitWsAux [] s.data

/-- The characters of the lookbehind class `[.!?]`. -/
def isSentEnd (c : Char) : Bool := c == '.' || c == '!' || c == '?'

/-- One left-to-right pass of `re.split` with pattern
`(?<=[.!?])\s+`: a maximal whitespace run whose first character is directly
preceded by `.`, `!` or `?` separates tokens; any other whitespace stays
inside the current token.  `skip = true` while consuming the matched
whitespace run; `cur` is the current token in reverse (its head is the
character directly before the scan position).  At end of input the current
token is emitted even when empty, exactly as `re.split` yields a trailing
`""` after a final match (and `[""]` on empty input). -/
def reSplitAux : Bool → List Char → List Char → List (List Char)
  | _, cur, [] => [cur.reverse]
  | skip, cur, c :: rest =>
      if skip then
        if c.isWhitespace then reSplitAux true cur rest
        else reSplitAux false [c] rest
      else
        if c.isWhitespace && isSentEnd (cur.headD ' ') then
          cur.reverse :: reSplitAux true [] rest
        else reSplitAux false (c :: cur) rest

/-- Line 357: `re.split(r'(?<=[.!?])\s+', doc.page_content)`. -/
def reSplitSent (s : String) : List String :=
  (reSplitAux false [] s.data).map String.mk

/-- `str.lower()` on one character (the inputs of interest are ASCII). -/
def lowerChar (c : Char) : Char :=
  if 'A' ≤ c ∧ c ≤ 'Z' then Char.ofNat (c.toNat + 32) else c

/-- `s.lower()`. -/
def pyLower (s : String) : String := String.mk (s.data.map lowerChar)

/-- The term set of a text: `set(text.lower().split())`, as a duplicate-free
list (order is irrelevant to the uses: cardinality and membership). -/
def pyTermSet (s : String) : List String := (pySplitWs (pyLower s)).dedup

/-- Lines 367-371: per-sentence term-overlap score
`len(query_terms & sentence_terms) / max(len(query_terms), 1)` when the
query term set is non-empty, else `0`.  `qterms` is already duplicate-free,
so filtering it by membership in the sentence term set counts the
intersection. -/
def sentScore (qterms : List String) (sentence : String) : ℚ :=
  if qterms = [] then 0
  else Rat.divInt
    ((qterms.filter (fun t => decide (t ∈ pyTermSet sentence))).length : Int)
    ((max qterms.length 1 : Nat) : Int)

/-- `scores.index(max(scores))`: first index attaining the maximum. -/
def idxOfMax (l : List ℚ) : Nat := l.findIdx (fun x => decide (x = listMax l))

/-- `DocumentProcessor.enhanced_context_window` applied to a single
document (document_processor.py lines 349-407).  The per-document
`try/except` never fires for this pure computation. -/
def enhanceDoc (query : String) (window_size : Nat) (d : Doc) : Doc :=
  if d.metadata.error then d
  else
    let sentences := reSplitSent d.page_content
    if sentences = [] ∨ sentences.length ≤ 2 * window_size then d
    else
      let qterms := pyTermSet query
      let scores := sentences.map (sentScore qterms)
      if listMax scores < Rat.divInt 1 10 ∧ sentences.length > 10 then
        { page_content :=
            String.intercalate " " (sentences.take (min 10 sentences.length)),
          metadata := { d.metadata with window_type := some "prefix" } }
      else
        let m := idxOfMax scores
        let s := m - window_size
        let e := min sentences.length (m + window_size + 1)
        { page_content :=
            String.intercalate " " ((sentences.drop s).take (e - s)),
          metadata := { d.metadata with
            window_start := some s, window_end := some e,
            central_sentence := some m,
            sentence_relevance := some (scores.getD m 0),
            window_type := some "context" } }

/-- `DocumentProcessor.enhanced_context_window` (document_processor.py
lines 332-409): the early `[]` return for an empty input list coincides
with mapping over `[]`. -/
def enhanced_context_window (docs : List Doc) (query : String)
    (window_size : Nat) : List Doc :=
  docs.map (enhanceDoc query window_size)

/-! ## Helper lemmas -/

lemma score_setScore (v : ℚ) (d : Doc) :
    (setScore v d).metadata.relevance_score = some v := rfl

lemma score_setDept (dep : String) (d : Doc) :
    (setDept dep d).metadata.relevance_score = d.metadata.relevance_score := rfl

lemma isSome_fillScore (v : ℚ) (d : Doc) :
    ((fillScore v d).metadata.relevance_score).isSome = true := by
  unfold fillScore
  cases h : d.metadata.relevance_score <;> simp [h, setScore]

lemma fillScore_getD (v : ℚ) (d : Doc) :
    ((fillScore v d).metadata.relevance_score).getD v
      = (d.metadata.relevance_score).getD v := by
  unfold fillScore
  cases h : d.metadata.relevance_score <;> simp [h, setScore]

lemma effectiveK_zero (t : Nat) : effectiveK 0 t = t := rfl

lemma effectiveK_self (t : Nat) : effectiveK t t = t := by
  unfold effectiveK; split <;> rfl

lemma effectiveK_of_ne (k t : Nat) (h : k ≠ 0) : effectiveK k t = k := by
  unfold effectiveK; simp [h]

/-! ## Claims -/

/-- C1 counterexample: for the single retrieved document with
`relevance_score = 0.1` and the default threshold `0.3`, the source returns
`has_relevant_context = True` even though the maximum score is below the
threshold, so `has_relevant_context = (max_score ≥ threshold)` is false at
this input. -/
theorem C1_claim_false_at_low_scores :
    ¬(((evaluate_context_relevance
          [⟨"x", { relevance_score := some (Rat.divInt 1 10) }⟩] (Rat.divInt 3 10)).2 = true) ↔
      (evaluate_context_relevance
          [⟨"x", { relevance_score := some (Rat.divInt 1 10) }⟩] (Rat.divInt 3 10)).1 ≥ Rat.divInt 3 10) := by
  decide

/-- C1 (amended): for every non-empty list of retrieved documents and every
threshold, `evaluate_context_relevance` returns `has_relevant_context =
True` unconditionally - the threshold is never consulted - and the returned
`max_score` is the maximum `relevance_score` over the documents, with
missing scores defaulted to 0.7.  (The empty list returns `(0.0, False)` by
definition.) -/
theorem C1_always_relevant (docs : List Doc) (t : ℚ) (h : docs ≠ []) :
    evaluate_context_relevance docs t
      = (listMax (docs.map (fun d => (d.metadata.relevance_score).getD (Rat.divInt 7 10))),
         true) := by
  unfold evaluate_context_relevance
  rw [if_neg h]
  simp only [List.map_map]
  have hfun : (fun d => ((fillScore (Rat.divInt 7 10) d).metadata.relevance_score).getD (Rat.divInt 7 10))
      = (fun d : Doc => (d.metadata.relevance_score).getD (Rat.divInt 7 10)) :=
    funext (fillScore_getD (Rat.divInt 7 10))
  simp only [Function.comp_def, hfun]

/-- C1 witness: the amended theorem applied to a concrete one-document
list. -/
theorem C1_always_relevant_witness :
    ([⟨"x", { relevance_score := some (Rat.divInt 1 10) }⟩] : List Doc) ≠ [] ∧
    evaluate_context_relevance [⟨"x", { relevance_score := some (Rat.divInt 1 10) }⟩] (Rat.divInt 3 10)
      = (Rat.divInt 1 10, true) := by
  refine ⟨by simp, ?_⟩
  have h := C1_always_relevant
    [⟨"x", { relevance_score := some (Rat.divInt 1 10) }⟩] (Rat.divInt 3 10) (by simp)
  simpa using h

/-- C10: `add_documents` and `add_documents_to_department` called with an
empty (Python `None` or `[]`) chunk list return `False` immediately and
leave the state untouched: the returned state equals the input state, no
`save_local` call succeeds (`saves = 0`) and no `initialize_*` delegation
happens (`inits = 0`). -/
theorem C10_empty_add_is_noop (vs : VectorStore) (ienv : BuildEnv)
    (aenv : AddEnv) (dept : String) :
    add_documents vs ienv aenv [] = ⟨false, vs, 0, 0⟩ ∧
    add_documents_to_department vs ienv aenv dept [] = ⟨false, vs, 0, 0⟩ := by
  constructor <;> rfl

/-- C9: a result budget of `0` (modelling both Python `None` and `0`, which
are equally falsy in `k = k or self.top_k_retrieval`) behaves exactly as if
the configured default `top_k_retrieval` had been passed, for both
`similarity_search` and `search_department`; concretely, a store holding 5
documents returns 5 documents for `k = 0` (with the default
`top_k_retrieval = 5`) rather than the empty list. -/
theorem C9_zero_budget_uses_default (vs : VectorStore) (o : SearchOracle)
    (dept : String) :
    (similarity_search vs o 0 = similarity_search vs o vs.top_k_retrieval ∧
     search_department vs o dept 0
       = search_department vs o dept vs.top_k_retrieval) ∧
    (similarity_search
        { vectorstore := some ⟨[⟨"a",{}⟩,⟨"b",{}⟩,⟨"c",{}⟩,⟨"d",{}⟩,⟨"e",{}⟩], false⟩ }
        ⟨.error (), .error ()⟩ 0).length = 5 := by
  refine ⟨⟨?_, ?_⟩, by decide⟩
  · unfold similarity_search
    rw [effectiveK_zero, effectiveK_self]
  · unfold search_department
    rw [effectiveK_zero, effectiveK_self]

/-- C7: the context-window refiner passes a document through completely
unmodified (the output IS the input document, content and metadata alike)
whenever it carries the error-placeholder flag or splits into at most
`2 * window_size` sentences; in particular empty content `""` splits into
the single sentence list `[""]`, so for every half-width `w ≥ 1` an
empty-content document passes through unmodified, with no out-of-bounds
access (the embedding is total). -/
theorem C7_short_or_error_passthrough (q : String) (w : Nat) (d : Doc) :
    (d.metadata.error = true → enhanceDoc q w d = d) ∧
    ((reSplitSent d.page_content).length ≤ 2 * w → enhanceDoc q w d = d) ∧
    (1 ≤ w → d.page_content = "" → enhanceDoc q w d = d) := by
  have h2 : (reSplitSent d.page_content).length ≤ 2 * w →
      enhanceDoc q w d = d := by
    intro h
    unfold enhanceDoc
    by_cases he : d.metadata.error = true
    · simp [he]
    · rw [if_neg he, if_pos (Or.inr h)]
  refine ⟨?_, h2, ?_⟩
  · intro he
    unfold enhanceDoc
    rw [if_pos he]
  · intro hw hc
    apply h2
    rw [hc]
    show (reSplitSent "").length ≤ 2 * w
    have hone : (reSplitSent "").length = 1 := rfl
    omega

/-- C7 witness: concrete empty-content pass-through at the default
half-width 3, and a pass-through of a 2-sentence document at width 1. -/
theorem C7_short_or_error_passthrough_witness :
    (1 ≤ 3 ∧ enhanceDoc "any query" 3 ⟨"", {}⟩ = ⟨"", {}⟩) ∧
    ((reSplitSent "A. B.").length ≤ 2 * 1 ∧
      enhanceDoc "A." 1 ⟨"A. B.", {}⟩ = ⟨"A. B.", {}⟩) := by
  refine ⟨⟨by decide, ?_⟩, ⟨by decide, ?_⟩⟩
  · exact (C7_short_or_error_passthrough "any query" 3 ⟨"", {}⟩).2.2
      (by decide) rfl
  · exact (C7_short_or_error_passthrough "A." 1 ⟨"A. B.", {}⟩).2.1 (by decide)

lemma foldl_max_mem (t : List ℚ) (a : ℚ) :
    t.foldl max a = a ∨ t.foldl max a ∈ t := by
  induction t generalizing a with
  | nil => exact Or.inl rfl
  | cons b t ih =>
    rw [List.foldl_cons]
    rcases ih (max a b) with h | h
    · rw [h]
      rcases max_choice a b with h2 | h2
      · exact Or.inl h2
      · right; rw [h2]; exact List.mem_cons_self b t
    · exact Or.inr (List.mem_cons_of_mem b h)

lemma listMax_mem (l : List ℚ) (h : l ≠ []) : listMax l ∈ l := by
  cases l with
  | nil => exact absurd rfl h
  | cons a t =>
    show t.foldl max a ∈ a :: t
    rcases foldl_max_mem t a with h1 | h1
    · rw [h1]; exact List.mem_cons_self a t
    · exact List.mem_cons_of_mem a h1

/-- Sentence list of one document, as the refiner computes it. -/
def docSents (d : Doc) : List String := reSplitSent d.page_content

/-- Per-sentence term-overlap scores of one document against a query, as
the refiner computes them. -/
def docScores (q : String) (d : Doc) : List ℚ :=
  (docSents d).map (sentScore (pyTermSet q))

/-- C6: on the eight-sentence content `"S1. S2. S3. S4. S5. S6. S7. S8."`
with query `"S5."` (whose single term overlaps only sentence index 4) and
half-width `w = 2`, the refiner emits exactly `"S3. S4. S5. S6. S7."` with
`central_sentence = 4` (and window bounds 2/7, winning score 1); and in
general, whenever the error/short-document branches and the low-score
prefix branch do not fire, the emitted window is the sentence slice
`[m - w, min (len, m + w + 1))` (truncated subtraction is `max 0 (m - w)`)
joined with single spaces, where `m` is the first index attaining the
maximum term-overlap score. -/
theorem C6_window_around_best_sentence :
    (enhanced_context_window [⟨"S1. S2. S3. S4. S5. S6. S7. S8.", {}⟩] "S5." 2 =
      [⟨"S3. S4. S5. S6. S7.",
        { window_start := some 2, window_end := some 7, central_sentence := some 4,
          sentence_relevance := some 1, window_type := some "context" }⟩]) ∧
    (∀ (q : String) (w : Nat) (d : Doc),
      d.metadata.error = false →
      2 * w < (docSents d).length →
      ¬(listMax (docScores q d) < Rat.divInt 1 10 ∧ 10 < (docSents d).length) →
      (enhanceDoc q w d).page_content
        = String.intercalate " " (((docSents d).drop (idxOfMax (docScores q d) - w)).take
            (min (docSents d).length (idxOfMax (docScores q d) + w + 1)
              - (idxOfMax (docScores q d) - w))) ∧
      (enhanceDoc q w d).metadata.central_sentence
        = some (idxOfMax (docScores q d)) ∧
      (enhanceDoc q w d).metadata.window_start
        = some (idxOfMax (docScores q d) - w) ∧
      (enhanceDoc q w d).metadata.window_end
        = some (min (docSents d).length (idxOfMax (docScores q d) + w + 1)) ∧
      idxOfMax (docScores q d) < (docScores q d).length ∧
      (docScores q d).getD (idxOfMax (docScores q d)) 0 = listMax (docScores q d) ∧
      (∀ j, j < idxOfMax (docScores q d) →
        (docScores q d).getD j 0 ≠ listMax (docScores q d))) := by
  constructor
  · decide
  · intro q w d herr hlen hpre
    have hne : docSents d ≠ [] := by
      intro h0
      rw [h0] at hlen
      simp at hlen
    have hsne : docScores q d ≠ [] := by
      unfold docScores
      simp [hne]
    have hmem : listMax (docScores q d) ∈ docScores q d := listMax_mem _ hsne
    have hex : ∃ x ∈ docScores q d,
        (fun x => decide (x = listMax (docScores q d))) x = true :=
      ⟨listMax (docScores q d), hmem, by simp⟩
    have hmlt : idxOfMax (docScores q d) < (docScores q d).length :=
      List.findIdx_lt_length_of_exists hex
    set m := idxOfMax (docScores q d) with hm
    set pc := String.intercalate " " (((docSents d).drop (m - w)).take
      (min (docSents d).length (m + w + 1) - (m - w))) with hpc
    set md : Metadata := { d.metadata with
      window_start := some (m - w),
      window_end := some (min (docSents d).length (m + w + 1)),
      central_sentence := some m,
      sentence_relevance := some ((docScores q d).getD m 0),
      window_type := some "context" } with hmd
    have heq : enhanceDoc q w d = { page_content := pc, metadata := md } := by
      have hlen2 : 2 * w < (reSplitSent d.page_content).length := hlen
      have hne2 : reSplitSent d.page_content ≠ [] := hne
      have hpre2 : ¬(listMax (List.map (sentScore (pyTermSet q))
          (reSplitSent d.page_content)) < Rat.divInt 1 10 ∧
          10 < (reSplitSent d.page_content).length) := hpre
      unfold enhanceDoc
      rw [if_neg (by simp [herr])]
      dsimp only
      rw [if_neg (by push_neg; exact ⟨hne2, by omega⟩)]
      rw [if_neg hpre2]
      rfl
    refine ⟨by rw [heq], by rw [heq], by rw [heq], by rw [heq], hmlt, ?_, ?_⟩
    · have hget := List.findIdx_of_getElem?_eq_some
        (List.getElem?_eq_getElem hmlt)
      rw [List.getD_eq_getElem _ _ hmlt]
      simpa using hget
    · intro j hj
      have hjlt : j < (docScores q d).length := Nat.lt_trans hj hmlt
      have hfa := List.not_of_lt_findIdx
        (show j < (docScores q d).findIdx
          (fun x => decide (x = listMax (docScores q d))) from hj)
      rw [List.getD_eq_getElem _ _ hjlt]
      simpa using hfa

/-- C6 witness: the general window formula applied at the concrete
eight-sentence document and query `"S5."` with `w = 2`, evaluating to
the expected window content and center index. -/
theorem C6_window_around_best_sentence_witness :
    (enhanceDoc "S5." 2 ⟨"S1. S2. S3. S4. S5. S6. S7. S8.", {}⟩).page_content
      = "S3. S4. S5. S6. S7." ∧
    (enhanceDoc "S5." 2 ⟨"S1. S2. S3. S4. S5. S6. S7. S8.", {}⟩).metadata.central_sentence
      = some 4 := by
  have h := C6_window_around_best_sentence.2 "S5." 2
    ⟨"S1. S2. S3. S4. S5. S6. S7. S8.", {}⟩ (by decide) (by decide) (by decide)
  refine ⟨?_, ?_⟩
  · rw [h.1]; decide
  · rw [h.2.1]; decide

lemma lookupDept_updateDept (m : List (String × Faiss)) (dept : String)
    (f : Faiss) : lookupDept (updateDept m dept f) dept = some f := by
  induction m with
  | nil => simp [updateDept, lookupDept]
  | cons p rest ih =>
    obtain ⟨n, g⟩ := p
    by_cases h : n = dept
    · simp [updateDept, lookupDept, h]
    · simp [updateDept, lookupDept, h, ih]

/-- C8: for both `initialize_vectorstore` and
`initialize_department_vectorstore`, at most one fallback placeholder-build
attempt is ever made; exactly one is made when the primary path (build or
save, reached because loading was skipped or failed) raises; none is made
when nothing raises; the call returns `False` precisely when the primary
path raised AND the fallback build also raised; and a `True` return always
leaves a store in place for the slot that was initialized. -/
theorem C8_one_fallback_then_report (vs : VectorStore) (env : BuildEnv)
    (dept : String) (chunks : List Doc) (rebuild : Bool) :
    ((initialize_vectorstore vs env chunks rebuild).1.fallback_attempts ≤ 1 ∧
     ((chunks ≠ [] ∨ rebuild = true ∨ env.load = .error ()) →
       env.build_fails = true ∨ env.save_fails = true →
       (initialize_vectorstore vs env chunks rebuild).1.fallback_attempts = 1) ∧
     (env.build_fails = false ∧ env.save_fails = false →
       (initialize_vectorstore vs env chunks rebuild).1.fallback_attempts = 0) ∧
     ((initialize_vectorstore vs env chunks rebuild).1.ok = false ↔
       ((chunks ≠ [] ∨ rebuild = true ∨ env.load = .error ()) ∧
        (env.build_fails = true ∨ env.save_fails = true) ∧
        env.fallback_fails = true)) ∧
     ((initialize_vectorstore vs env chunks rebuild).1.ok = true →
       ((initialize_vectorstore vs env chunks rebuild).2.vectorstore).isSome
         = true)) ∧
    ((initialize_department_vectorstore vs env dept chunks rebuild).1.fallback_attempts ≤ 1 ∧
     ((chunks ≠ [] ∨ rebuild = true ∨ env.load = .error ()) →
       env.build_fails = true ∨ env.save_fails = true →
       (initialize_department_vectorstore vs env dept chunks rebuild).1.fallback_attempts = 1) ∧
     (env.build_fails = false ∧ env.save_fails = false →
       (initialize_department_vectorstore vs env dept chunks rebuild).1.fallback_attempts = 0) ∧
     ((initialize_department_vectorstore vs env dept chunks rebuild).1.ok = false ↔
       ((chunks ≠ [] ∨ rebuild = true ∨ env.load = .error ()) ∧
        (env.build_fails = true ∨ env.save_fails = true) ∧
        env.fallback_fails = true)) ∧
     ((initialize_department_vectorstore vs env dept chunks rebuild).1.ok = true →
       (lookupDept
         (initialize_department_vectorstore vs env dept chunks rebuild).2.department_vectorstores
         dept).isSome = true)) := by
  constructor
  · unfold initialize_vectorstore initVectorstoreBuild initVectorstoreFallback
    repeat' split
    all_goals simp_all
  · unfold initialize_department_vectorstore initDeptBuild initDeptFallback
    repeat' split
    all_goals simp_all [lookupDept_updateDept]

/-- C8 witness: a call whose save step raises and whose fallback succeeds
makes exactly one fallback attempt and still reports success with a store
in place. -/
theorem C8_one_fallback_then_report_witness :
    (initialize_vectorstore {} ⟨.error (), false, true, false⟩ [] false).1.fallback_attempts = 1 ∧
    ((initialize_vectorstore {} ⟨.error (), false, true, false⟩ [] false).2.vectorstore).isSome = true := by
  have h := C8_one_fallback_then_report {} ⟨.error (), false, true, false⟩
    "general" [] false
  exact ⟨h.1.2.1 (Or.inr (Or.inr rfl)) (Or.inr rfl), h.1.2.2.2.2 (by decide)⟩

lemma mainSearchDocs_ok (use_mmr has_index : Bool) (o : SearchOracle)
    (ds : List Doc) (h : mainSearchDocs use_mmr has_index o = .ok ds) :
    o.mmr = .ok ds ∨ o.plain = .ok ds := by
  unfold mainSearchDocs at h
  cases hu : use_mmr with
  | false => rw [hu] at h; simp at h; exact Or.inr h
  | true =>
    rw [hu] at h
    simp only [if_true] at h
    cases he : o.mmr with
    | ok ds1 =>
      rw [he] at h
      simp only [] at h
      split at h
      · exact Or.inr h
      · exact Or.inl h
    | error e =>
      rw [he] at h
      simp only [] at h
      cases hpl : o.plain with
      | ok ds2 =>
        rw [hpl] at h
        simp only [] at h
        exact Or.inr h
      | error e2 =>
        rw [hpl] at h
        simp at h

lemma length_simSearchCore (vs : VectorStore) (o : SearchOracle) (f : Faiss)
    (k : Nat)
    (hm : ∀ ds, o.mmr = .ok ds → ds.length ≤ k)
    (hp : ∀ ds, o.plain = .ok ds → ds.length ≤ k) :
    (simSearchCore vs o f k).length ≤ k := by
  unfold simSearchCore
  split
  · simp only [List.length_map, List.length_take]
    exact Nat.min_le_left _ _
  · split
    case _ ds hds =>
      have hlen : ds.length ≤ k :=
        (mainSearchDocs_ok _ _ _ _ hds).elim (hm ds) (hp ds)
      dsimp only
      split
      · split
        · simp only [List.length_map, List.length_take]
          exact Nat.min_le_left _ _
        · simpa using hlen
      · simpa using hlen
    case _ e he =>
      split
      · simp only [List.length_map, List.length_take]
        exact Nat.min_le_left _ _
      · simp

/-- C4: for every query (represented by the oracle of underlying search
outcomes, which for a real FAISS index return at most `k` documents and may
raise), every positive result budget `k` and every index state,
`similarity_search` returns at most `k` documents and is total (every
oracle outcome, including both underlying searches raising, yields a list,
never an exception); with the main store absent it returns `[]`. -/
theorem C4_similarity_search_safe (vs : VectorStore) (o : SearchOracle)
    (k : Nat) (hk : 1 ≤ k)
    (hm : ∀ ds, o.mmr = .ok ds → ds.length ≤ k)
    (hp : ∀ ds, o.plain = .ok ds → ds.length ≤ k) :
    (vs.vectorstore = none → similarity_search vs o k = []) ∧
    (similarity_search vs o k).length ≤ k := by
  constructor
  · intro h
    unfold similarity_search
    rw [h]
  · unfold similarity_search
    cases hv : vs.vectorstore with
    | none => simp
    | some f =>
      rw [effectiveK_of_ne k _ (by omega)]
      exact length_simSearchCore vs o f k hm hp

/-- C4 witness: at budget 5 with both underlying searches raising and the
store absent, the result is `[]` (in particular of length at most 5). -/
theorem C4_similarity_search_safe_witness :
    similarity_search {} ⟨.error (), .error ()⟩ 5 = [] ∧
    (similarity_search {} ⟨.error (), .error ()⟩ 5).length ≤ 5 := by
  have h := C4_similarity_search_safe {} ⟨.error (), .error ()⟩ 5 (by omega)
    (fun ds hds => by cases hds) (fun ds hds => by cases hds)
  exact ⟨h.1 rfl, h.2⟩

/-- After `initialize_department_vectorstore(partition="general", chunks=[])`
on a fresh store whose saved index cannot be loaded (`load_local` raises on
the empty directory), the state holds the single-sentinel placeholder
index. -/
def emptyInitState : VectorStore :=
  (initialize_department_vectorstore {} ⟨.error (), false, false, false⟩
    "general" [] false).2

/-- The sentinel document of the `"general"` placeholder index. -/
def sentinelGen : Doc := ⟨"Empty placeholder for general department", {}⟩

/-- Real FAISS behaviour on a one-document index: both
`max_marginal_relevance_search` and `similarity_search` return the single
stored document (the nearest neighbour of any query) for any `k ≥ 1`. -/
def sentinelOracle : SearchOracle := ⟨.ok [sentinelGen], .ok [sentinelGen]⟩

/-- C2 counterexample: initializing partition `"general"` with an empty
chunk list succeeds and installs the single-sentinel placeholder index, but
the subsequent `search_department("anything", k=5)` - whose underlying
FAISS searches return the one stored (sentinel) document - returns the
sentinel annotated with the 0.85 default score, not the empty list: the
placeholder sentinel leaks into results. -/
theorem C2_sentinel_leaks_into_results :
    (initialize_department_vectorstore {} ⟨.error (), false, false, false⟩
      "general" [] false).1.ok = true ∧
    search_department emptyInitState sentinelOracle "general" 5
      = [setDept "general" (fillScore (Rat.divInt 17 20) sentinelGen)] ∧
    search_department emptyInitState sentinelOracle "general" 5 ≠ [] := by
  refine ⟨by decide, by decide, by decide⟩

/-- C2 (amended): after initializing a partition with an empty chunk list,
every subsequent search against that partition completes without raising
and returns at most `k` documents, but it does NOT return the empty list:
the underlying searches return the stored sentinel (the nearest neighbour
of any query in a one-document index), so the search returns exactly the
placeholder sentinel annotated with the 0.85 default relevance score and
the partition name. -/
theorem C2_empty_partition_search (k : Nat) (hk : 1 ≤ k) (o : SearchOracle)
    (hmm : o.mmr = .ok [sentinelGen]) :
    search_department emptyInitState o "general" k
      = [setDept "general" (fillScore (Rat.divInt 17 20) sentinelGen)] ∧
    (search_department emptyInitState o "general" k).length ≤ k := by
  have hcore : ∀ kk, deptSearchCore emptyInitState o "general"
      ⟨[sentinelGen], true⟩ kk
      = [setDept "general" (fillScore (Rat.divInt 17 20) sentinelGen)] := by
    intro kk
    unfold deptSearchCore
    rw [if_neg (by simp)]
    have hms : mainSearchDocs emptyInitState.use_mmr (true : Bool) o
        = .ok [sentinelGen] := by
      have hu : emptyInitState.use_mmr = true := by decide
      unfold mainSearchDocs
      rw [hu, if_pos rfl, hmm]
      dsimp only
      rw [if_neg (by simp)]
    rw [hms]
    dsimp only
    rw [if_neg (by simp)]
    rfl
  have hlook : lookupDept emptyInitState.department_vectorstores "general"
      = some ⟨[sentinelGen], true⟩ := by decide
  have hres : search_department emptyInitState o "general" k
      = [setDept "general" (fillScore (Rat.divInt 17 20) sentinelGen)] := by
    unfold search_department
    rw [hlook]
    exact hcore _
  exact ⟨hres, by rw [hres]; simpa using hk⟩

/-- C2 witness: the amended theorem at `k = 5` with the concrete
FAISS-on-singleton oracle. -/
theorem C2_empty_partition_search_witness :
    search_department emptyInitState sentinelOracle "general" 5
      = [setDept "general" (fillScore (Rat.divInt 17 20) sentinelGen)] ∧
    (search_department emptyInitState sentinelOracle "general" 5).length ≤ 5 :=
  C2_empty_partition_search 5 (by omega) sentinelOracle rfl

lemma mem_insertDesc (x z : Doc) (l : List Doc) :
    z ∈ insertDesc x l ↔ z = x ∨ z ∈ l := by
  induction l with
  | nil => simp [insertDesc]
  | cons y ys ih =>
    unfold insertDesc
    split
    · simp [List.mem_cons]
    · simp only [List.mem_cons, ih]
      tauto

lemma pairwise_insertDesc (x : Doc) (l : List Doc)
    (h : l.Pairwise (fun a b => scoreKey b ≤ scoreKey a)) :
    (insertDesc x l).Pairwise (fun a b => scoreKey b ≤ scoreKey a) := by
  induction l with
  | nil => simp [insertDesc]
  | cons y ys ih =>
    rw [List.pairwise_cons] at h
    obtain ⟨hy, hys⟩ := h
    unfold insertDesc
    split
    case isTrue hlt =>
      rw [List.pairwise_cons]
      refine ⟨?_, List.pairwise_cons.2 ⟨hy, hys⟩⟩
      intro z hz
      rcases List.mem_cons.1 hz with rfl | hz2
      · exact le_of_lt hlt
      · exact le_trans (hy z hz2) (le_of_lt hlt)
    case isFalse hge =>
      rw [List.pairwise_cons]
      refine ⟨?_, ih hys⟩
      intro z hz
      rcases (mem_insertDesc x z ys).1 hz with rfl | hz2
      · exact le_of_not_lt hge
      · exact hy z hz2

lemma mem_sortDescAux (z : Doc) (l acc : List Doc) :
    z ∈ sortDescAux acc l ↔ z ∈ acc ∨ z ∈ l := by
  induction l generalizing acc with
  | nil => simp [sortDescAux]
  | cons x xs ih =>
    show z ∈ sortDescAux (insertDesc x acc) xs ↔ _
    rw [ih]
    simp only [mem_insertDesc, List.mem_cons]
    tauto

lemma mem_sortDesc (z : Doc) (l : List Doc) : z ∈ sortDesc l ↔ z ∈ l := by
  unfold sortDesc
  rw [mem_sortDescAux]
  simp

lemma pairwise_sortDescAux (l acc : List Doc)
    (hacc : acc.Pairwise (fun a b => scoreKey b ≤ scoreKey a)) :
    (sortDescAux acc l).Pairwise (fun a b => scoreKey b ≤ scoreKey a) := by
  induction l generalizing acc with
  | nil => exact hacc
  | cons x xs ih => exact ih _ (pairwise_insertDesc x acc hacc)

/-- `sortDesc` output is non-increasing in `scoreKey`. -/
lemma pairwise_sortDesc (l : List Doc) :
    (sortDesc l).Pairwise (fun a b => scoreKey b ≤ scoreKey a) :=
  pairwise_sortDescAux l [] (by simp)

lemma filter_insertDesc (c : ℚ) (x : Doc) (l : List Doc)
    (h : l.Pairwise (fun a b => scoreKey b ≤ scoreKey a)) :
    (insertDesc x l).filter (fun d => decide (scoreKey d = c))
      = if scoreKey x = c
        then l.filter (fun d => decide (scoreKey d = c)) ++ [x]
        else l.filter (fun d => decide (scoreKey d = c)) := by
  induction l with
  | nil =>
    unfold insertDesc
    by_cases hx : scoreKey x = c <;> simp [hx]
  | cons y ys ih =>
    rw [List.pairwise_cons] at h
    obtain ⟨hy, hys⟩ := h
    unfold insertDesc
    split
    case isTrue hlt =>
      by_cases hx : scoreKey x = c
      · have hnil : (y :: ys).filter (fun d => decide (scoreKey d = c)) = [] := by
          apply List.filter_eq_nil_iff.2
          intro a ha
          rcases List.mem_cons.1 ha with rfl | ha2
          · simp only [decide_eq_true_eq]
            exact ne_of_lt (hx ▸ hlt)
          · simp only [decide_eq_true_eq]
            exact ne_of_lt (lt_of_le_of_lt (hy a ha2) (hx ▸ hlt))
        rw [if_pos hx, hnil, List.filter_cons_of_pos (by simp [hx]), hnil]
        simp
      · rw [if_neg hx, List.filter_cons_of_neg (by simp [hx])]
    case isFalse hge =>
      rw [List.filter_cons, ih hys, List.filter_cons]
      by_cases hx : scoreKey x = c <;> by_cases hyc : scoreKey y = c <;>
        simp [hx, hyc]

lemma filter_sortDescAux (c : ℚ) (l acc : List Doc)
    (hacc : acc.Pairwise (fun a b => scoreKey b ≤ scoreKey a)) :
    (sortDescAux acc l).filter (fun d => decide (scoreKey d = c))
      = acc.filter (fun d => decide (scoreKey d = c))
        ++ l.filter (fun d => decide (scoreKey d = c)) := by
  induction l generalizing acc with
  | nil => simp [sortDescAux]
  | cons x xs ih =>
    show (sortDescAux (insertDesc x acc) xs).filter _ = _
    rw [ih _ (pairwise_insertDesc x acc hacc)]
    rw [filter_insertDesc c x acc hacc, List.filter_cons]
    by_cases hx : scoreKey x = c <;> simp [hx]

/-- `sortDesc` is stable: for each score value the filtered subsequence is
unchanged, i.e. equal-score elements keep their input order. -/
lemma filter_sortDesc (c : ℚ) (l : List Doc) :
    (sortDesc l).filter (fun d => decide (scoreKey d = c))
      = l.filter (fun d => decide (scoreKey d = c)) := by
  have h := filter_sortDescAux c l [] (by simp)
  simpa [sortDesc] using h

lemma mem_concatMap (f : String → List Doc) (l : List String) (z : Doc) :
    z ∈ concatMap f l ↔ ∃ a ∈ l, z ∈ f a := by
  induction l with
  | nil => simp [concatMap]
  | cons b bs ih =>
    unfold concatMap
    simp only [List.mem_append, ih, List.mem_cons]
    constructor
    · rintro (h | ⟨a, ha, hz⟩)
      · exact ⟨b, Or.inl rfl, h⟩
      · exact ⟨a, Or.inr ha, hz⟩
    · rintro ⟨a, rfl | ha, hz⟩
      · exact Or.inl hz
      · exact Or.inr ⟨a, ha, hz⟩

lemma score_isSome_deptSearchCore (vs : VectorStore) (o : SearchOracle)
    (dept : String) (f : Faiss) (k : Nat) :
    ∀ d ∈ deptSearchCore vs o dept f k,
      (d.metadata.relevance_score).isSome = true := by
  intro d hd
  unfold deptSearchCore at hd
  split at hd
  · rcases List.mem_map.1 hd with ⟨d0, _, rfl⟩
    simp [setDept, setScore]
  · split at hd
    case _ ds hds =>
      dsimp only at hd
      split at hd
      · split at hd
        · rcases List.mem_map.1 hd with ⟨d0, _, rfl⟩
          simp [setDept, setScore]
        · next hmapnil _ =>
          rw [hmapnil] at hd
          exact absurd hd (List.not_mem_nil d)
      · rcases List.mem_map.1 hd with ⟨d0, _, rfl⟩
        rw [score_setDept]
        exact isSome_fillScore _ _
    case _ e he =>
      split at hd
      · rcases List.mem_map.1 hd with ⟨d0, _, rfl⟩
        simp [setDept, setScore]
      · exact absurd hd (List.not_mem_nil d)

lemma score_isSome_search_department (vs : VectorStore) (o : SearchOracle)
    (dept : String) (k : Nat) :
    ∀ d ∈ search_department vs o dept k,
      (d.metadata.relevance_score).isSome = true := by
  intro d hd
  unfold search_department at hd
  cases hl : lookupDept vs.department_vectorstores dept with
  | none =>
    rw [hl] at hd
    exact absurd hd (List.not_mem_nil d)
  | some f =>
    rw [hl] at hd
    exact score_isSome_deptSearchCore vs o dept f _ d hd

/-- The score-normalisation loop of `search_across_departments` (lines
513-519) does not touch documents that already carry a score. -/
lemma normMap_id (compute : Doc → ℚ) (embedOk : Bool) (l : List Doc)
    (h : ∀ d ∈ l, (d.metadata.relevance_score).isSome = true) :
    l.map (fun d => if d.metadata.relevance_score.isSome then d
      else if embedOk then setScore (compute d) d
      else setScore (Rat.divInt 7 10) d) = l := by
  induction l with
  | nil => rfl
  | cons x xs ih =>
    rw [List.map_cons, if_pos (h x (List.mem_cons_self x xs)),
      ih (fun d hd => h d (List.mem_cons_of_mem x hd))]

/-- C5: for every store, every underlying-search behaviour, every non-empty
explicit partition list and every positive budget `k`, the fused result of
`search_across_departments` has length at most `k`, is sorted non-increasing
by `relevance_score` (`scoreKey`, the `metadata.get('relevance_score', 0)`
sort key), and is stable: for every score value `c`, the returned documents
scoring `c` form a prefix of the documents scoring `c` in the concatenation
of the per-partition results in scan order - so on ties the document from
the earlier-scanned partition comes first, and within one partition the
original per-partition rank order is preserved. -/
theorem C5_fusion_sorted_stable (vs : VectorStore)
    (oracles : String → SearchOracle) (mainO : SearchOracle)
    (compute : Doc → ℚ) (embedOk : Bool) (ds : List String) (k : Nat)
    (hds : ds ≠ []) (hk : 1 ≤ k) :
    (search_across_departments vs oracles mainO compute embedOk (some ds) k).length ≤ k ∧
    List.Pairwise (fun a b => scoreKey b ≤ scoreKey a)
      (search_across_departments vs oracles mainO compute embedOk (some ds) k) ∧
    ∀ c : ℚ,
      (search_across_departments vs oracles mainO compute embedOk (some ds) k).filter
          (fun d => decide (scoreKey d = c))
        <+: (concatMap (fun dept =>
              if (lookupDept vs.department_vectorstores dept).isSome then
                (search_department vs (oracles dept) dept k).map (setDept dept)
              else []) ds).filter (fun d => decide (scoreKey d = c)) := by
  have hke : effectiveK k vs.top_k_retrieval = k := effectiveK_of_ne _ _ (by omega)
  set merged := concatMap (fun dept =>
    if (lookupDept vs.department_vectorstores dept).isSome then
      (search_department vs (oracles dept) dept k).map (setDept dept)
    else []) ds with hmerged
  have hmem : ∀ d ∈ merged, (d.metadata.relevance_score).isSome = true := by
    intro d hd
    rw [hmerged] at hd
    rcases (mem_concatMap _ _ _).1 hd with ⟨dept, _, hdin⟩
    by_cases hl : (lookupDept vs.department_vectorstores dept).isSome
    · rw [if_pos hl] at hdin
      rcases List.mem_map.1 hdin with ⟨d0, hd0, rfl⟩
      rw [score_setDept]
      exact score_isSome_search_department vs (oracles dept) dept k d0 hd0
    · rw [if_neg hl] at hdin
      exact absurd hdin (List.not_mem_nil d)
  have hout : search_across_departments vs oracles mainO compute embedOk (some ds) k
      = (sortDesc merged).take k := by
    unfold search_across_departments
    rw [if_neg (by simp [hds])]
    dsimp only [Option.getD_some]
    rw [if_neg hds, hke, ← hmerged, normMap_id compute embedOk merged hmem]
  refine ⟨?_, ?_, ?_⟩
  · rw [hout, List.length_take]
    exact Nat.min_le_left _ _
  · rw [hout]
    exact List.Pairwise.sublist (List.take_sublist _ _) (pairwise_sortDesc merged)
  · intro c
    rw [hout]
    have h1 := (List.take_prefix k (sortDesc merged)).filter
      (fun d => decide (scoreKey d = c))
    rw [filter_sortDesc] at h1
    exact h1

/-- A chunk in partition `"a"` scoring 0.9 (the spec's tie-break example). -/
def docA : Doc := ⟨"doc a", { relevance_score := some (Rat.divInt 9 10) }⟩

/-- A chunk in partition `"b"` scoring 0.9. -/
def docB : Doc := ⟨"doc b", { relevance_score := some (Rat.divInt 9 10) }⟩

/-- Two one-document partition indexes `"a"` and `"b"`. -/
def vsAB : VectorStore :=
  { department_vectorstores := [("a", ⟨[docA], true⟩), ("b", ⟨[docB], true⟩)] }

/-- FAISS on the one-document indexes: each partition search returns its
stored document. -/
def oraclesAB : String → SearchOracle := fun dept =>
  if dept = "a" then ⟨.ok [docA], .ok [docA]⟩ else ⟨.ok [docB], .ok [docB]⟩

/-- C5 witness: the fusion theorem applied to partitions `["a","b"]` whose
chunks both score 0.9 with budget 2; additionally the concrete fused output
is `[docA, docB]` (each stamped with its partition): the tie is broken in
favour of the earlier-scanned partition `"a"`. -/
theorem C5_fusion_sorted_stable_witness :
    (search_across_departments vsAB oraclesAB ⟨.error (), .error ()⟩
        (fun _ => 0) true (some ["a", "b"]) 2).length ≤ 2 ∧
    List.Pairwise (fun a b => scoreKey b ≤ scoreKey a)
      (search_across_departments vsAB oraclesAB ⟨.error (), .error ()⟩
        (fun _ => 0) true (some ["a", "b"]) 2) ∧
    search_across_departments vsAB oraclesAB ⟨.error (), .error ()⟩
        (fun _ => 0) true (some ["a", "b"]) 2
      = [setDept "a" docA, setDept "b" docB] := by
  have h := C5_fusion_sorted_stable vsAB oraclesAB ⟨.error (), .error ()⟩
    (fun _ => 0) true ["a", "b"] 2 (by simp) (by omega)
  exact ⟨h.1, h.2.1, by decide⟩

/-- C3 counterexample: a chunk stored with pre-existing metadata
`relevance_score = 1.5` is returned by `similarity_search` (here via the
MMR path of the underlying index, which returns the stored document) with
that score unchanged - outside `[0,1]` - so the claim that every returned
chunk's score lies in `[0,1]` fails at this index state. -/
theorem C3_preexisting_score_passes_through :
    similarity_search
        { vectorstore := some ⟨[⟨"x", { relevance_score := some (Rat.divInt 3 2) }⟩], true⟩ }
        ⟨.ok [⟨"x", { relevance_score := some (Rat.divInt 3 2) }⟩],
         .ok [⟨"x", { relevance_score := some (Rat.divInt 3 2) }⟩]⟩ 5
      = [⟨"x", { relevance_score := some (Rat.divInt 3 2) }⟩] ∧
    ¬(Rat.divInt 3 2 ≤ 1) := by
  refine ⟨by decide, by decide⟩

/-- A document whose `relevance_score` metadata, when present, lies in
`[0,1]`. -/
def scoreOk (d : Doc) : Prop :=
  ∀ v, d.metadata.relevance_score = some v → 0 ≤ v ∧ v ≤ 1

/-- A document carrying a `relevance_score` inside `[0,1]`. -/
def scoredIn01 (d : Doc) : Prop :=
  ∃ v, d.metadata.relevance_score = some v ∧ 0 ≤ v ∧ v ≤ 1

lemma scoredIn01_setScore (v : ℚ) (h0 : 0 ≤ v) (h1 : v ≤ 1) (d : Doc) :
    scoredIn01 (setScore v d) := ⟨v, rfl, h0, h1⟩

lemma scoredIn01_fillScore (v : ℚ) (h0 : 0 ≤ v) (h1 : v ≤ 1) (d : Doc)
    (hd : scoreOk d) : scoredIn01 (fillScore v d) := by
  unfold fillScore
  cases h : d.metadata.relevance_score with
  | none => exact scoredIn01_setScore v h0 h1 d
  | some q => exact ⟨q, h, hd q h⟩

lemma scoredIn01_setDept (dep : String) (d : Doc) (h : scoredIn01 d) :
    scoredIn01 (setDept dep d) := by
  obtain ⟨v, hv, h0, h1⟩ := h
  exact ⟨v, by rw [score_setDept]; exact hv, h0, h1⟩

lemma scored_simSearchCore (vs : VectorStore) (o : SearchOracle) (f : Faiss)
    (k : Nat)
    (hmmr : ∀ ds, o.mmr = .ok ds → ∀ d ∈ ds, scoreOk d)
    (hplain : ∀ ds, o.plain = .ok ds → ∀ d ∈ ds, scoreOk d) :
    ∀ d ∈ simSearchCore vs o f k, scoredIn01 d := by
  intro d hd
  unfold simSearchCore at hd
  split at hd
  · rcases List.mem_map.1 hd with ⟨d0, hd0, rfl⟩
    exact scoredIn01_setScore _ (by decide) (by decide) d0
  · split at hd
    case _ ds hds =>
      have hdsok : ∀ d ∈ ds, scoreOk d :=
        (mainSearchDocs_ok _ _ _ _ hds).elim (hmmr ds) (hplain ds)
      dsimp only at hd
      split at hd
      case isTrue hnil =>
        split at hd
        · rcases List.mem_map.1 hd with ⟨d0, hd0, rfl⟩
          exact scoredIn01_setScore _ (by decide) (by decide) d0
        · rw [hnil] at hd
          exact absurd hd (List.not_mem_nil d)
      case isFalse hne =>
        rcases List.mem_map.1 hd with ⟨d0, hd0, rfl⟩
        exact scoredIn01_fillScore _ (by decide) (by decide) d0 (hdsok d0 hd0)
    case _ e he =>
      split at hd
      · rcases List.mem_map.1 hd with ⟨d0, hd0, rfl⟩
        exact scoredIn01_setScore _ (by decide) (by decide) d0
      · exact absurd hd (List.not_mem_nil d)

lemma scored_deptSearchCore (vs : VectorStore) (o : SearchOracle)
    (dept : String) (f : Faiss) (k : Nat)
    (hmmr : ∀ ds, o.mmr = .ok ds → ∀ d ∈ ds, scoreOk d)
    (hplain : ∀ ds, o.plain = .ok ds → ∀ d ∈ ds, scoreOk d) :
    ∀ d ∈ deptSearchCore vs o dept f k, scoredIn01 d := by
  intro d hd
  unfold deptSearchCore at hd
  split at hd
  · rcases List.mem_map.1 hd with ⟨d0, hd0, rfl⟩
    exact scoredIn01_setDept dept _
      (scoredIn01_setScore _ (by decide) (by decide) d0)
  · split at hd
    case _ ds hds =>
      have hdsok : ∀ d ∈ ds, scoreOk d :=
        (mainSearchDocs_ok _ _ _ _ hds).elim (hmmr ds) (hplain ds)
      dsimp only at hd
      split at hd
      case isTrue hnil =>
        split at hd
        · rcases List.mem_map.1 hd with ⟨d0, hd0, rfl⟩
          exact scoredIn01_setDept dept _
            (scoredIn01_setScore _ (by decide) (by decide) d0)
        · rw [hnil] at hd
          exact absurd hd (List.not_mem_nil d)
      case isFalse hne =>
        rcases List.mem_map.1 hd with ⟨d0, hd0, rfl⟩
        exact scoredIn01_setDept dept _
          (scoredIn01_fillScore _ (by decide) (by decide) d0 (hdsok d0 hd0))
    case _ e he =>
      split at hd
      · rcases List.mem_map.1 hd with ⟨d0, hd0, rfl⟩
        exact scoredIn01_setDept dept _
          (scoredIn01_setScore _ (by decide) (by decide) d0)
      · exact absurd hd (List.not_mem_nil d)

lemma scored_similarity_search (vs : VectorStore) (o : SearchOracle) (k : Nat)
    (hmmr : ∀ ds, o.mmr = .ok ds → ∀ d ∈ ds, scoreOk d)
    (hplain : ∀ ds, o.plain = .ok ds → ∀ d ∈ ds, scoreOk d) :
    ∀ d ∈ similarity_search vs o k, scoredIn01 d := by
  intro d hd
  unfold similarity_search at hd
  cases hv : vs.vectorstore with
  | none =>
    rw [hv] at hd
    exact absurd hd (List.not_mem_nil d)
  | some f =>
    rw [hv] at hd
    exact scored_simSearchCore vs o f _ hmmr hplain d hd

lemma scored_search_department (vs : VectorStore) (o : SearchOracle)
    (dept : String) (k : Nat)
    (hmmr : ∀ ds, o.mmr = .ok ds → ∀ d ∈ ds, scoreOk d)
    (hplain : ∀ ds, o.plain = .ok ds → ∀ d ∈ ds, scoreOk d) :
    ∀ d ∈ search_department vs o dept k, scoredIn01 d := by
  intro d hd
  unfold search_department at hd
  cases hl : lookupDept vs.department_vectorstores dept with
  | none =>
    rw [hl] at hd
    exact absurd hd (List.not_mem_nil d)
  | some f =>
    rw [hl] at hd
    exact scored_deptSearchCore vs o dept f _ hmmr hplain d hd

/-- C3 (amended): for every query, budget and index state, every chunk
returned by `similarity_search`, `search_department` and
`search_across_departments` carries a `relevance_score`; chunks arriving
from the underlying search without one get a tier-specific default filled
in (0.85 main search, 0.8 docstore-direct, 0.7 no-result fallback, 0.6
emergency fallback), each inside `[0,1]`; chunks that already carry a score
keep it unchanged, so the returned scores all lie in `[0,1]` PROVIDED every
score already present on the documents the underlying searches return lies
in `[0,1]` (without that proviso the bound fails, see the counterexample). -/
theorem C3_scores_present_and_bounded (vs : VectorStore) (o : SearchOracle)
    (oracles : String → SearchOracle) (mainO : SearchOracle)
    (compute : Doc → ℚ) (embedOk : Bool) (dept : String)
    (depts : Option (List String)) (k : Nat)
    (hmmr : ∀ ds, o.mmr = .ok ds → ∀ d ∈ ds, scoreOk d)
    (hplain : ∀ ds, o.plain = .ok ds → ∀ d ∈ ds, scoreOk d)
    (hommr : ∀ dep ds, (oracles dep).mmr = .ok ds → ∀ d ∈ ds, scoreOk d)
    (hoplain : ∀ dep ds, (oracles dep).plain = .ok ds → ∀ d ∈ ds, scoreOk d)
    (hmmmr : ∀ ds, mainO.mmr = .ok ds → ∀ d ∈ ds, scoreOk d)
    (hmplain : ∀ ds, mainO.plain = .ok ds → ∀ d ∈ ds, scoreOk d) :
    (∀ d ∈ similarity_search vs o k, scoredIn01 d) ∧
    (∀ d ∈ search_department vs o dept k, scoredIn01 d) ∧
    (∀ d ∈ search_across_departments vs oracles mainO compute embedOk depts k,
      scoredIn01 d) := by
  refine ⟨scored_similarity_search vs o k hmmr hplain,
          scored_search_department vs o dept k hmmr hplain, ?_⟩
  intro d hd
  unfold search_across_departments at hd
  split at hd
  · exact scored_similarity_search vs mainO k hmmmr hmplain d hd
  · dsimp only at hd
    have hd2 := List.mem_of_mem_take hd
    rw [mem_sortDesc] at hd2
    rcases List.mem_map.1 hd2 with ⟨d0, hd0, rfl⟩
    rcases (mem_concatMap _ _ _).1 hd0 with ⟨dep, _, hdin⟩
    by_cases hl : (lookupDept vs.department_vectorstores dep).isSome
    · rw [if_pos hl] at hdin
      rcases List.mem_map.1 hdin with ⟨d1, hd1, rfl⟩
      have hsc : scoredIn01 (setDept dep d1) :=
        scoredIn01_setDept dep d1 (scored_search_department vs (oracles dep)
          dep _ (hommr dep) (hoplain dep) d1 hd1)
      obtain ⟨v, hv, h0, h1⟩ := hsc
      rw [if_pos (by rw [hv]; rfl)]
      exact ⟨v, hv, h0, h1⟩
    · rw [if_neg hl] at hdin
      exact absurd hdin (List.not_mem_nil d0)

/-- A one-document main store and partition store whose stored document
carries no `relevance_score`. -/
def vsW : VectorStore :=
  { vectorstore := some ⟨[⟨"x", {}⟩], true⟩,
    department_vectorstores := [("g", ⟨[⟨"x", {}⟩], true⟩)] }

/-- FAISS on the one-document store: both searches return the stored
document. -/
def oW : SearchOracle := ⟨.ok [⟨"x", {}⟩], .ok [⟨"x", {}⟩]⟩

/-- C3 witness: the amended theorem applied at a concrete one-document
store whose document has no pre-existing score; the returned chunk carries
the 0.85 default, inside `[0,1]`. -/
theorem C3_scores_present_and_bounded_witness :
    scoredIn01 (fillScore (Rat.divInt 17 20) ⟨"x", {}⟩) := by
  have hok : ∀ ds, (Except.ok [(⟨"x", {}⟩ : Doc)] : Except Unit (List Doc))
      = .ok ds → ∀ d ∈ ds, scoreOk d := by
    intro ds h
    cases h
    intro d hd v hv
    rcases List.mem_cons.1 hd with rfl | h2
    · exact absurd hv (by simp)
    · exact absurd h2 (List.not_mem_nil d)
  have h := C3_scores_present_and_bounded vsW oW (fun _ => oW) oW
    (fun _ => 0) true "g" (some ["g"]) 5 hok hok (fun _ => hok)
    (fun _ => hok) hok hok
  exact h.1 (fillScore (Rat.divInt 17 20) ⟨"x", {}⟩) (by decide)
